import Mathlib

/-!
Verification development for the redshift-avro repository: a shallow embedding of
the record-decode pipelines (Spring Cloud header framing, KPL envelope unpacking,
schema-registry caching, and the Redshift UDF batch handlers) together with
theorems settling the specified properties.

Machine bytes are modelled as `Nat` values below 256; byte strings as `List Nat`.
External library capabilities (protobuf parse, Avro datum decode, HTTP fetch) are
modelled as explicit function parameters, following the design spec, which treats
them as external collaborators.
-/

/-- Model of a Python JSON value (the values produced by json.loads and consumed
by json.dumps in the source). Numbers are modelled as integers; the pipeline never
manipulates fractional JSON numbers. -/
inductive Json where
  | null : Json
  | bool : Bool → Json
  | num : Int → Json
  | str : String → Json
  | arr : List Json → Json
  | obj : List (String × Json) → Json

mutual

/-- Boolean equality on Json values (used to build decidable equality). -/
def jsonBeq : Json → Json → Bool
  | .null, .null => true
  | .bool x, .bool y => decide (x = y)
  | .num x, .num y => decide (x = y)
  | .str x, .str y => decide (x = y)
  | .arr xs, .arr ys => jsonBeqL xs ys
  | .obj xs, .obj ys => jsonBeqO xs ys
  | _, _ => false

/-- Boolean equality on Json lists. -/
def jsonBeqL : List Json → List Json → Bool
  | [], [] => true
  | x :: xs, y :: ys => jsonBeq x y && jsonBeqL xs ys
  | _, _ => false

/-- Boolean equality on Json object member lists. -/
def jsonBeqO : List (String × Json) → List (String × Json) → Bool
  | [], [] => true
  | (k, v) :: xs, (l, w) :: ys => decide (k = l) && jsonBeq v w && jsonBeqO xs ys
  | _, _ => false

end

mutual

/-- Reflexivity of jsonBeq. -/
def jsonBeq_refl : (a : Json) → jsonBeq a a = true
  | .null => rfl
  | .bool _ => decide_eq_true rfl
  | .num _ => decide_eq_true rfl
  | .str _ => decide_eq_true rfl
  | .arr xs => jsonBeqL_refl xs
  | .obj xs => jsonBeqO_refl xs

/-- Reflexivity of jsonBeqL. -/
def jsonBeqL_refl : (xs : List Json) → jsonBeqL xs xs = true
  | [] => rfl
  | x :: xs => by
      show (jsonBeq x x && jsonBeqL xs xs) = true
      rw [jsonBeq_refl x, jsonBeqL_refl xs]; rfl

/-- Reflexivity of jsonBeqO. -/
def jsonBeqO_refl : (xs : List (String × Json)) → jsonBeqO xs xs = true
  | [] => rfl
  | (k, v) :: xs => by
      show (decide (k = k) && jsonBeq v v && jsonBeqO xs xs) = true
      rw [jsonBeq_refl v, jsonBeqO_refl xs, decide_eq_true rfl]; rfl

end

mutual

/-- Soundness of jsonBeq. -/
def jsonBeq_eq : (a b : Json) → jsonBeq a b = true → a = b
  | .null, .null, _ => rfl
  | .bool _, .bool _, h => congrArg Json.bool (of_decide_eq_true h)
  | .num _, .num _, h => congrArg Json.num (of_decide_eq_true h)
  | .str _, .str _, h => congrArg Json.str (of_decide_eq_true h)
  | .arr xs, .arr ys, h => congrArg Json.arr (jsonBeqL_eq xs ys h)
  | .obj xs, .obj ys, h => congrArg Json.obj (jsonBeqO_eq xs ys h)
  | .null, .bool _, h => Bool.noConfusion h
  | .null, .num _, h => Bool.noConfusion h
  | .null, .str _, h => Bool.noConfusion h
  | .null, .arr _, h => Bool.noConfusion h
  | .null, .obj _, h => Bool.noConfusion h
  | .bool _, .null, h => Bool.noConfusion h
  | .bool _, .num _, h => Bool.noConfusion h
  | .bool _, .str _, h => Bool.noConfusion h
  | .bool _, .arr _, h => Bool.noConfusion h
  | .bool _, .obj _, h => Bool.noConfusion h
  | .num _, .null, h => Bool.noConfusion h
  | .num _, .bool _, h => Bool.noConfusion h
  | .num _, .str _, h => Bool.noConfusion h
  | .num _, .arr _, h => Bool.noConfusion h
  | .num _, .obj _, h => Bool.noConfusion h
  | .str _, .null, h => Bool.noConfusion h
  | .str _, .bool _, h => Bool.noConfusion h
  | .str _, .num _, h => Bool.noConfusion h
  | .str _, .arr _, h => Bool.noConfusion h
  | .str _, .obj _, h => Bool.noConfusion h
  | .arr _, .null, h => Bool.noConfusion h
  | .arr _, .bool _, h => Bool.noConfusion h
  | .arr _, .num _, h => Bool.noConfusion h
  | .arr _, .str _, h => Bool.noConfusion h
  | .arr _, .obj _, h => Bool.noConfusion h
  | .obj _, .null, h => Bool.noConfusion h
  | .obj _, .bool _, h => Bool.noConfusion h
  | .obj _, .num _, h => Bool.noConfusion h
  | .obj _, .str _, h => Bool.noConfusion h
  | .obj _, .arr _, h => Bool.noConfusion h

/-- Soundness of jsonBeqL. -/
def jsonBeqL_eq : (xs ys : List Json) → jsonBeqL xs ys = true → xs = ys
  | [], [], _ => rfl
  | x :: xs, y :: ys, h => by
      have hp : jsonBeq x y = true ∧ jsonBeqL xs ys = true := by
        have hh : (jsonBeq x y && jsonBeqL xs ys) = true := h
        rw [Bool.and_eq_true] at hh; exact hh
      rw [jsonBeq_eq x y hp.1, jsonBeqL_eq xs ys hp.2]
  | [], _ :: _, h => Bool.noConfusion h
  | _ :: _, [], h => Bool.noConfusion h

/-- Soundness of jsonBeqO. -/
def jsonBeqO_eq : (xs ys : List (String × Json)) → jsonBeqO xs ys = true → xs = ys
  | [], [], _ => rfl
  | (k, v) :: xs, (l, w) :: ys, h => by
      have hh : (decide (k = l) && jsonBeq v w && jsonBeqO xs ys) = true := h
      rw [Bool.and_eq_true, Bool.and_eq_true] at hh
      rw [of_decide_eq_true hh.1.1, jsonBeq_eq v w hh.1.2, jsonBeqO_eq xs ys hh.2]
  | [], _ :: _, h => Bool.noConfusion h
  | _ :: _, [], h => Bool.noConfusion h

end

instance : DecidableEq Json := fun a b =>
  if h : jsonBeq a b = true then .isTrue (jsonBeq_eq a b h)
  else .isFalse (fun he => h (by rw [he]; exact jsonBeq_refl b))

/-- Model of the Python exceptions that the source code can raise. -/
inductive PyErr where
  | structError
  | assertionError
  | unicodeDecodeError
  | jsonDecodeError
  | keyError : String → PyErr
  | attributeError
  | valueError
  | indexError
  | decodeError
  | httpError
  | schemaParseError
deriving DecidableEq

/-- Lookup in a Python dict modelled as an association list (first match wins,
matching insertion-ordered Python dict semantics). -/
def dictGet {α β : Type} [DecidableEq α] : List (α × β) → α → Option β
  | [], _ => none
  | (k, v) :: rest, key => if k = key then some v else dictGet rest key

/-- Insertion into a Python dict modelled as an association list: an existing key
keeps its position and receives the new value, a new key is appended. -/
def dictInsert {α β : Type} [DecidableEq α] : List (α × β) → α → β → List (α × β)
  | [], key, v => [(key, v)]
  | (k, w) :: rest, key, v =>
    if k = key then (k, v) :: rest else (k, w) :: dictInsert rest key v

/-- Strict UTF-8 decoding of a byte list into unicode code points, as performed by
bytes.decode with the utf-8 codec: rejects stray continuation bytes, overlong
encodings, surrogate code points and truncated sequences. The first argument is
fuel, instantiated with the list length. -/
def utf8Go : Nat → List Nat → Option (List Nat)
  | _, [] => some []
  | 0, _ :: _ => none
  | fuel + 1, b :: rest =>
    if b ≤ 127 then (utf8Go fuel rest).map (fun t => b :: t)
    else if b ≤ 193 then none
    else if b ≤ 223 then
      match rest with
      | b2 :: rest2 =>
        if 128 ≤ b2 ∧ b2 ≤ 191 then
          (utf8Go fuel rest2).map (fun t => ((b - 192) * 64 + (b2 - 128)) :: t)
        else none
      | [] => none
    else if b ≤ 239 then
      match rest with
      | b2 :: b3 :: rest2 =>
        if (if b = 224 then 160 else 128) ≤ b2 ∧ b2 ≤ (if b = 237 then 159 else 191) ∧
            128 ≤ b3 ∧ b3 ≤ 191 then
          (utf8Go fuel rest2).map
            (fun t => ((b - 224) * 4096 + (b2 - 128) * 64 + (b3 - 128)) :: t)
        else none
      | _ => none
    else if b ≤ 244 then
      match rest with
      | b2 :: b3 :: b4 :: rest2 =>
        if (if b = 240 then 144 else 128) ≤ b2 ∧ b2 ≤ (if b = 244 then 143 else 191) ∧
            128 ≤ b3 ∧ b3 ≤ 191 ∧ 128 ≤ b4 ∧ b4 ≤ 191 then
          (utf8Go fuel rest2).map
            (fun t =>
              ((b - 240) * 262144 + (b2 - 128) * 4096 + (b3 - 128) * 64 + (b4 - 128)) :: t)
        else none
      | _ => none
    else none

/-- Strict UTF-8 decode of a byte list into a string, modelling
value.decode with the utf-8 codec in the source. -/
def utf8Decode (bs : List Nat) : Option String :=
  (utf8Go bs.length bs).map (fun cps => String.mk (cps.map Char.ofNat))

/-- Hexadecimal digit value of a character, or none. -/
def hexVal (c : Char) : Option Nat :=
  if 48 ≤ c.toNat ∧ c.toNat ≤ 57 then some (c.toNat - 48)
  else if 97 ≤ c.toNat ∧ c.toNat ≤ 102 then some (c.toNat - 87)
  else if 65 ≤ c.toNat ∧ c.toNat ≤ 70 then some (c.toNat - 55)
  else none

/-- Pair-wise hexadecimal decoding with spaces permitted between byte pairs,
modelling bytes.fromhex. -/
def fromhexGo : List Char → Option (List Nat)
  | [] => some []
  | c :: rest =>
    if c.toNat = 32 then fromhexGo rest
    else
      match rest with
      | [] => none
      | c2 :: rest2 =>
        match hexVal c, hexVal c2 with
        | some h, some l => (fromhexGo rest2).map (fun t => (h * 16 + l) :: t)
        | _, _ => none

/-- Model of bytes.fromhex applied to a record argument; raises ValueError on
malformed hexadecimal text. -/
def pyFromHex (s : String) : Except PyErr (List Nat) :=
  match fromhexGo s.toList with
  | some bs => .ok bs
  | none => .error .valueError

/-- Whitespace skipping as done by the Python json parser. -/
def skipWs : List Char → List Char
  | [] => []
  | c :: rest =>
    if c.toNat = 32 ∨ c.toNat = 9 ∨ c.toNat = 10 ∨ c.toNat = 13 then skipWs rest
    else c :: rest

/-- Digit test on a character code. -/
def isDigitCode (c : Char) : Bool := 48 ≤ c.toNat ∧ c.toNat ≤ 57

/-- Decimal value of a digit list. -/
def digitsVal (ds : List Char) : Nat := ds.foldl (fun acc c => acc * 10 + (c.toNat - 48)) 0

/-- True when the next character would extend an integer literal into a
floating-point literal, which this model of json.loads does not cover (the
pipeline never produces fractional JSON numbers). -/
def floatFollows : List Char → Bool
  | [] => false
  | c :: _ => c.toNat = 46 ∨ c.toNat = 101 ∨ c.toNat = 69

/-- JSON string-body parser (after the opening quote): returns the decoded
content characters and the remaining input. Handles the standard escapes and
rejects unescaped control characters, as the Python json parser does. The
first argument is fuel. -/
def parseJString : Nat → List Char → Option (List Char × List Char)
  | 0, _ => none
  | _ + 1, [] => none
  | fuel + 1, c :: rest =>
    if c.toNat = 34 then some ([], rest)
    else if c.toNat = 92 then
      match rest with
      | [] => none
      | esc :: rest2 =>
        if esc.toNat = 34 ∨ esc.toNat = 92 ∨ esc.toNat = 47 then
          (parseJString fuel rest2).map (fun p => (esc :: p.1, p.2))
        else if esc.toNat = 110 then
          (parseJString fuel rest2).map (fun p => (Char.ofNat 10 :: p.1, p.2))
        else if esc.toNat = 116 then
          (parseJString fuel rest2).map (fun p => (Char.ofNat 9 :: p.1, p.2))
        else if esc.toNat = 114 then
          (parseJString fuel rest2).map (fun p => (Char.ofNat 13 :: p.1, p.2))
        else if esc.toNat = 98 then
          (parseJString fuel rest2).map (fun p => (Char.ofNat 8 :: p.1, p.2))
        else if esc.toNat = 102 then
          (parseJString fuel rest2).map (fun p => (Char.ofNat 12 :: p.1, p.2))
        else if esc.toNat = 117 then
          match rest2 with
          | h1 :: h2 :: h3 :: h4 :: rest3 =>
            match hexVal h1, hexVal h2, hexVal h3, hexVal h4 with
            | some a, some b, some c2, some d =>
              (parseJString fuel rest3).map
                (fun p => (Char.ofNat (a * 4096 + b * 256 + c2 * 16 + d) :: p.1, p.2))
            | _, _, _, _ => none
          | _ => none
        else none
    else if c.toNat < 32 then none
    else (parseJString fuel rest).map (fun p => (c :: p.1, p.2))

mutual

/-- Recursive-descent JSON value parser modelling json.loads on the JSON
fragment used by this pipeline (integers instead of arbitrary numerics). The
first argument is fuel, instantiated with the input length plus one. -/
def parseJValue : Nat → List Char → Option (Json × List Char)
  | 0, _ => none
  | fuel + 1, cs =>
    match skipWs cs with
    | [] => none
    | c :: rest =>
      if c.toNat = 34 then
        (parseJString fuel rest).map (fun p => (Json.str (String.mk p.1), p.2))
      else if c.toNat = 91 then
        match skipWs rest with
        | d :: rest2 =>
          if d.toNat = 93 then some (Json.arr [], rest2)
          else
            match parseJValue fuel rest with
            | some (v, rest3) => parseJElems fuel [v] rest3
            | none => none
        | [] => none
      else if c.toNat = 123 then
        match skipWs rest with
        | d :: rest2 =>
          if d.toNat = 125 then some (Json.obj [], rest2)
          else
            match parseJMember fuel rest with
            | some (kv, rest3) => parseJMembers fuel [kv] rest3
            | none => none
        | [] => none
      else if c.toNat = 116 then
        match rest with
        | c1 :: c2 :: c3 :: rest2 =>
          if c1.toNat = 114 ∧ c2.toNat = 117 ∧ c3.toNat = 101 then
            some (Json.bool true, rest2)
          else none
        | _ => none
      else if c.toNat = 102 then
        match rest with
        | c1 :: c2 :: c3 :: c4 :: rest2 =>
          if c1.toNat = 97 ∧ c2.toNat = 108 ∧ c3.toNat = 115 ∧ c4.toNat = 101 then
            some (Json.bool false, rest2)
          else none
        | _ => none
      else if c.toNat = 110 then
        match rest with
        | c1 :: c2 :: c3 :: rest2 =>
          if c1.toNat = 117 ∧ c2.toNat = 108 ∧ c3.toNat = 108 then
            some (Json.null, rest2)
          else none
        | _ => none
      else if c.toNat = 45 then
        match rest.span isDigitCode with
        | (ds, rest1) =>
          if ds.isEmpty then none
          else if floatFollows rest1 then none
          else some (Json.num (-(digitsVal ds : Int)), rest1)
      else if isDigitCode c then
        match (c :: rest).span isDigitCode with
        | (ds, rest1) =>
          if floatFollows rest1 then none
          else some (Json.num (digitsVal ds : Int), rest1)
      else none

/-- Parses one key/value member of a JSON object. -/
def parseJMember : Nat → List Char → Option ((String × Json) × List Char)
  | 0, _ => none
  | fuel + 1, cs =>
    match skipWs cs with
    | c :: rest =>
      if c.toNat = 34 then
        match parseJString fuel rest with
        | some (k, rest1) =>
          match skipWs rest1 with
          | d :: rest2 =>
            if d.toNat = 58 then
              match parseJValue fuel rest2 with
              | some (v, rest3) => some ((String.mk k, v), rest3)
              | none => none
            else none
          | [] => none
        | none => none
      else none
    | [] => none

/-- Parses the continuation of a JSON array after at least one element. -/
def parseJElems : Nat → List Json → List Char → Option (Json × List Char)
  | 0, _, _ => none
  | fuel + 1, acc, cs =>
    match skipWs cs with
    | c :: rest =>
      if c.toNat = 93 then some (Json.arr acc.reverse, rest)
      else if c.toNat = 44 then
        match parseJValue fuel rest with
        | some (v, rest1) => parseJElems fuel (v :: acc) rest1
        | none => none
      else none
    | [] => none

/-- Parses the continuation of a JSON object after at least one member. -/
def parseJMembers : Nat → List (String × Json) → List Char → Option (Json × List Char)
  | 0, _, _ => none
  | fuel + 1, acc, cs =>
    match skipWs cs with
    | c :: rest =>
      if c.toNat = 125 then some (Json.obj acc.reverse, rest)
      else if c.toNat = 44 then
        match parseJMember fuel rest with
        | some (kv, rest1) => parseJMembers fuel (kv :: acc) rest1
        | none => none
      else none
    | [] => none

end

/-- Model of Python json.loads: parses a full JSON document, requiring the
whole input to be consumed (up to trailing whitespace). -/
def jsonLoads (s : String) : Option Json :=
  match parseJValue (s.toList.length + 1) s.toList with
  | some (v, rest) => if skipWs rest = [] then some v else none
  | none => none

/-- Lowercase hexadecimal digit character. -/
def hexDigitChar (n : Nat) : Char := Char.ofNat (if n < 10 then 48 + n else 87 + n)

/-- Four-digit lowercase hexadecimal rendering. -/
def hex4 (n : Nat) : String :=
  String.mk [hexDigitChar (n / 4096 % 16), hexDigitChar (n / 256 % 16),
             hexDigitChar (n / 16 % 16), hexDigitChar (n % 16)]

/-- Unicode escape as produced by json.dumps with ensure_ascii (the default),
including surrogate pairs above the basic multilingual plane. -/
def uEscape (n : Nat) : String :=
  if n < 65536 then "\\u" ++ hex4 n
  else
    "\\u" ++ hex4 (55296 + (n - 65536) / 1024) ++ "\\u" ++ hex4 (56320 + (n - 65536) % 1024)

/-- Escaping of one character inside a JSON string literal, as json.dumps does. -/
def escapeChar (c : Char) : String :=
  if c.toNat = 34 then "\\\""
  else if c.toNat = 92 then "\\\\"
  else if c.toNat = 10 then "\\n"
  else if c.toNat = 9 then "\\t"
  else if c.toNat = 13 then "\\r"
  else if c.toNat = 8 then "\\b"
  else if c.toNat = 12 then "\\f"
  else if c.toNat < 32 ∨ 127 ≤ c.toNat then uEscape c.toNat
  else String.mk [c]

/-- Escaping of a whole string for a JSON string literal. -/
def escapeString (s : String) : String := String.join (s.toList.map escapeChar)

mutual

/-- Model of Python json.dumps with default separators and ensure_ascii. -/
def jsonDumps : Json → String
  | .null => "null"
  | .bool true => "true"
  | .bool false => "false"
  | .num n => toString n
  | .str s => "\"" ++ escapeString s ++ "\""
  | .arr xs => "[" ++ jsonDumpsElems xs ++ "]"
  | .obj kvs => "\x7b" ++ jsonDumpsMembers kvs ++ "\x7d"

/-- Comma-joined serialization of array elements. -/
def jsonDumpsElems : List Json → String
  | [] => ""
  | x :: rest =>
    jsonDumps x ++ (if rest.isEmpty then "" else ", ") ++ jsonDumpsElems rest

/-- Comma-joined serialization of object members. -/
def jsonDumpsMembers : List (String × Json) → String
  | [] => ""
  | (k, v) :: rest =>
    "\"" ++ escapeString k ++ "\": " ++ jsonDumps v ++
      (if rest.isEmpty then "" else ", ") ++ jsonDumpsMembers rest

end

instance {ε α : Type} [DecidableEq ε] [DecidableEq α] : DecidableEq (Except ε α) := fun a b =>
  match a, b with
  | .ok x, .ok y =>
    if h : x = y then .isTrue (by rw [h]) else .isFalse (fun he => h (Except.ok.inj he))
  | .error x, .error y =>
    if h : x = y then .isTrue (by rw [h]) else .isFalse (fun he => h (Except.error.inj he))
  | .ok _, .error _ => .isFalse (fun he => Except.noConfusion he)
  | .error _, .ok _ => .isFalse (fun he => Except.noConfusion he)

/-- Model of an io.BytesIO cursor over an immutable byte buffer: the backing
bytes plus the current read position. -/
structure ByteStream where
  data : List Nat
  pos : Nat
deriving DecidableEq

/-- Model of BytesIO.read with a byte count: returns at most n bytes starting at
the cursor and advances the cursor by the number of bytes actually read. -/
def ByteStream.read (s : ByteStream) (n : Nat) : List Nat × ByteStream :=
  ((s.data.drop s.pos).take n, ⟨s.data, s.pos + ((s.data.drop s.pos).take n).length⟩)

/-- Model of BytesIO.read with no argument: returns all remaining bytes. -/
def ByteStream.readAll (s : ByteStream) : List Nat × ByteStream :=
  (s.data.drop s.pos, ⟨s.data, s.data.length⟩)

/-- Big-endian value of a byte list. -/
def beVal : List Nat → Nat
  | [] => 0
  | b :: rest => b * 256 ^ rest.length + beVal rest

/-- Model of SpringEmbeddedMessageUtils._read_uint: asserts the byte size is
between 1 and 4, reads that many bytes, left-pads with zero bytes to 4 bytes and
unpacks big-endian. struct.unpack raises struct.error unless the padded buffer
is exactly 4 bytes, which happens exactly when the stream was long enough. The
source then masks with max_size; for the masks used (0xFF and 0xFFFFFFFF, both
of the form 2 ^ k - 1) the bitwise AND equals reduction modulo max_size + 1. -/
def readUint (s : ByteStream) (bytesize maxSize : Nat) : Except PyErr (Nat × ByteStream) :=
  if 0 < bytesize ∧ bytesize ≤ 4 then
    if (4 - bytesize) + (s.read bytesize).1.length = 4 then
      .ok (beVal (s.read bytesize).1 % (maxSize + 1), (s.read bytesize).2)
    else .error .structError
  else .error .assertionError

/-- Model of SpringEmbeddedMessageUtils._read_string: reads the given number of
bytes (struct.error if the stream is shorter) and decodes them as UTF-8
(UnicodeDecodeError on invalid byte sequences). -/
def readString (s : ByteStream) (bytesize : Nat) : Except PyErr (String × ByteStream) :=
  if (s.read bytesize).1.length = bytesize then
    match utf8Decode (s.read bytesize).1 with
    | some str => .ok (str, (s.read bytesize).2)
    | none => .error .unicodeDecodeError
  else .error .structError

/-- The header-count loop of SpringEmbeddedMessageUtils.get_message_headers: for
each of the declared number of headers, reads a 1-byte key length, the key, a
4-byte big-endian value length and the value, JSON-decodes the value
(json.JSONDecodeError on failure) and inserts it into the headers dict. -/
def headerLoop : Nat → ByteStream → List (String × Json) →
    Except PyErr (List (String × Json) × ByteStream)
  | 0, s, acc => .ok (acc, s)
  | n + 1, s, acc =>
    match readUint s 1 255 with
    | .error e => .error e
    | .ok (keySize, s1) =>
      match readString s1 keySize with
      | .error e => .error e
      | .ok (key, s2) =>
        match readUint s2 4 4294967295 with
        | .error e => .error e
        | .ok (valueSize, s3) =>
          match readString s3 valueSize with
          | .error e => .error e
          | .ok (value, s4) =>
            match jsonLoads value with
            | some v => headerLoop n s4 (dictInsert acc key v)
            | none => .error .jsonDecodeError

/-- Model of SpringEmbeddedMessageUtils.get_message_headers: reads the 1-byte
magic flag; when it is not 0xFF returns an empty header dict (the flag byte
stays consumed), otherwise reads the 1-byte header count and runs the loop. -/
def getMessageHeaders (s : ByteStream) : Except PyErr (List (String × Json) × ByteStream) :=
  match readUint s 1 255 with
  | .error e => .error e
  | .ok (magic, s1) =>
    if magic ≠ 255 then .ok ([], s1)
    else
      match readUint s1 1 255 with
      | .error e => .error e
      | .ok (count, s2) => headerLoop count s2 []

/-- Model of a parsed Avro schema object (the result of avro.schema.parse),
identified by its schema text. -/
structure SchemaObj where
  text : String
deriving DecidableEq

/-- String rendering of a Python exception, modelling the text interpolated by
the f-string in the failure envelopes. -/
def errStr : PyErr → String
  | .structError => "unpack requires a buffer of 4 bytes"
  | .assertionError => "assertion failed"
  | .unicodeDecodeError => "utf-8 codec cant decode byte"
  | .jsonDecodeError => "Expecting value"
  | .keyError k => "KeyError: " ++ k
  | .attributeError => "int object has no attribute records"
  | .valueError => "ValueError: invalid literal"
  | .indexError => "list index out of range"
  | .decodeError => "Error parsing message"
  | .httpError => "HTTPError"
  | .schemaParseError => "SchemaParseException"

/-- Model of the generated protobuf message type AggregatedRecords: a container
whose repeated records field carries one opaque byte string per sub-record.
Modelled from the spec: the module aggregated_record_pb2 is generated code absent
from the repository; the spec describes the envelope as a binary container with a
repeated opaque-bytes field. -/
structure AggregatedRecords where
  records : List (List Nat)
deriving DecidableEq

/-- External collaborators of the Spring Cloud pipeline, passed explicitly:
the protobuf envelope parse, the registry HTTP fetch (requests.get on the
registry URL with the schema id, raising for 4xx and 5xx), avro.schema.parse on
the registry response, and the Avro datum decode (DatumReader.read). -/
structure SpringEnv where
  parseAggregated : List Nat → Except PyErr AggregatedRecords
  fetch : Json → Except PyErr String
  parseSchemaResp : String → Except PyErr SchemaObj
  avroRead : SchemaObj → List Nat → Except PyErr Json

/-- Model of SpringSchemaRegistry: the registry URL and the process-lifetime
schema cache dict, keyed by the schema id taken from the message headers. -/
structure SpringReg where
  url : String
  schemas : List (Json × SchemaObj)
deriving DecidableEq

/-- Model of SpringSchemaRegistry.get: on a cache miss, fetches the registry
response and parses it into a schema, storing it in the cache; on a hit, returns
the cached schema. The Nat in the result instruments the number of external
registry lookups performed by this call (0 on a hit, 1 on a miss), so that the
caching contract can be stated; the second component is the registry state after
the call. -/
def SpringReg.get (env : SpringEnv) (reg : SpringReg) (id : Json) :
    (Except PyErr (SchemaObj × Nat)) × SpringReg :=
  match dictGet reg.schemas id with
  | some sch => (.ok (sch, 0), reg)
  | none =>
    match env.fetch id with
    | .error e => (.error e, reg)
    | .ok data =>
      match env.parseSchemaResp data with
      | .error e => (.error e, reg)
      | .ok sch => (.ok (sch, 1), ⟨reg.url, dictInsert reg.schemas id sch⟩)

/-- Model of KPLClient.decode. The source rebinds the message variable to the
return value of ParseFromString; in the protobuf Python API that method parses
into the message in place and returns the number of bytes consumed, an int, so
the subsequent attribute access .records on the rebound variable raises
AttributeError whenever the parse itself succeeded. -/
def kplDecode (env : SpringEnv) (payload : List Nat) : Except PyErr (List (List Nat)) :=
  match env.parseAggregated payload with
  | .error e => .error e
  | .ok _ => .error .attributeError

/-- The for-loop body of LambdaHandler.decode_spring_kpl_encoded_data applied to
an already-deaggregated list of sub-payloads: parse the embedded headers, take
the rest of the stream as the body, look up the schema_id header (KeyError when
absent), resolve the schema through the registry and decode the Avro body. -/
def processSubPayloads (env : SpringEnv) :
    List (List Nat) → SpringReg → List Json → (Except PyErr (List Json)) × SpringReg
  | [], reg, acc => (.ok acc, reg)
  | sub :: rest, reg, acc =>
    match getMessageHeaders ⟨sub, 0⟩ with
    | .error e => (.error e, reg)
    | .ok (headers, s) =>
      match dictGet headers "schema_id" with
      | none => (.error (.keyError "schema_id"), reg)
      | some sid =>
        match SpringReg.get env reg sid with
        | (.error e, reg1) => (.error e, reg1)
        | (.ok (schema, _), reg1) =>
          match env.avroRead schema (s.readAll).1 with
          | .error e => (.error e, reg1)
          | .ok record => processSubPayloads env rest reg1 (acc ++ [record])

/-- Model of LambdaHandler.decode_spring_kpl_encoded_data: deaggregate the KPL
envelope, then run the sub-payload loop. -/
def decodeSpringKpl (env : SpringEnv) (reg : SpringReg) (payload : List Nat) :
    (Except PyErr (List Json)) × SpringReg :=
  match kplDecode env payload with
  | .error e => (.error e, reg)
  | .ok subs => processSubPayloads env subs reg []

/-- Model of a Redshift UDF invocation event: the argument rows and the
num_records field. -/
structure UdfEvent where
  arguments : List (List String)
  numRecords : Int
deriving DecidableEq

/-- The JSON object built by LambdaHandler._redshift_success. -/
def redshiftSuccessObj (data : List String) (numRecords : Int) : Json :=
  .obj [("success", .bool true), ("num_records", .num numRecords),
        ("results", .arr (data.map .str))]

/-- Model of LambdaHandler._redshift_success: the success envelope serialized
with json.dumps. -/
def redshiftSuccess (data : List String) (numRecords : Int) : String :=
  jsonDumps (redshiftSuccessObj data numRecords)

/-- The error message interpolated by LambdaHandler._redshift_failure. -/
def redshiftFailMsg (e : PyErr) : String :=
  "Error processing Lambda event. Error: " ++ errStr e

/-- The JSON object built by LambdaHandler._redshift_failure. -/
def redshiftFailureObj (e : PyErr) : Json :=
  .obj [("success", .bool false), ("error_msg", .str (redshiftFailMsg e))]

/-- Model of LambdaHandler._redshift_failure: the failure envelope serialized
with json.dumps. -/
def redshiftFailure (e : PyErr) : String := jsonDumps (redshiftFailureObj e)

/-- The per-record work of LambdaHandler.springboot_handler: hex-decode the
first element of the argument row (IndexError when the row is empty) and decode
the Spring KPL payload, serializing the decoded record list with json.dumps. -/
def springProcessRecord (env : SpringEnv) (record : List String) (reg : SpringReg) :
    (Except PyErr String) × SpringReg :=
  match record with
  | [] => (.error .indexError, reg)
  | r0 :: _ =>
    match pyFromHex r0 with
    | .error e => (.error e, reg)
    | .ok bytes =>
      match decodeSpringKpl env reg bytes with
      | (.error e, reg1) => (.error e, reg1)
      | (.ok records, reg1) => (.ok (jsonDumps (Json.arr records)), reg1)

/-- The record loop of LambdaHandler.springboot_handler: processes arguments in
order, accumulating result texts; the first exception aborts the loop. -/
def springLoop (env : SpringEnv) :
    List (List String) → SpringReg → List String → (Except PyErr (List String)) × SpringReg
  | [], reg, acc => (.ok acc, reg)
  | record :: rest, reg, acc =>
    match springProcessRecord env record reg with
    | (.ok r, reg1) => springLoop env rest reg1 (acc ++ [r])
    | (.error e, reg1) => (.error e, reg1)

/-- Model of LambdaHandler.springboot_handler: runs the record loop inside the
try block; on success returns the Redshift success envelope carrying the event
num_records verbatim, on any exception the single failure envelope. -/
def springbootHandler (env : SpringEnv) (event : UdfEvent) (reg : SpringReg) :
    String × SpringReg :=
  match springLoop env event.arguments reg [] with
  | (.ok results, reg1) => (redshiftSuccess results event.numRecords, reg1)
  | (.error e, reg1) => (redshiftFailure e, reg1)

/-- External collaborator of the file-embedded-schema handlers: the
DataFileReader-based decode that reads the schema from the payload itself and
yields the contained datums. -/
structure FileEnv where
  fileDecode : List Nat → Except PyErr (List Json)

/-- The per-record work of LambdaHandler.file_handler: hex-decode the first
element of the argument row and decode it as an Avro object container file,
serializing the datum list with json.dumps. -/
def fileProcessRecord (env : FileEnv) (record : List String) : Except PyErr String :=
  match record with
  | [] => .error .indexError
  | r0 :: _ =>
    match pyFromHex r0 with
    | .error e => .error e
    | .ok bytes =>
      match env.fileDecode bytes with
      | .error e => .error e
      | .ok datums => .ok (jsonDumps (Json.arr datums))

/-- The record loop of LambdaHandler.file_handler. -/
def fileLoop (env : FileEnv) : List (List String) → Except PyErr (List String)
  | [] => .ok []
  | record :: rest =>
    match fileProcessRecord env record with
    | .error e => .error e
    | .ok r =>
      match fileLoop env rest with
      | .error e => .error e
      | .ok rs => .ok (r :: rs)

/-- Model of LambdaHandler.file_handler. -/
def fileHandler (env : FileEnv) (event : UdfEvent) : String :=
  match fileLoop env event.arguments with
  | .ok results => redshiftSuccess results event.numRecords
  | .error e => redshiftFailure e

/-- A string exploded into a JSON array of its one-character strings, as the
Python expression list(text) produces when placed in a JSON-serializable
structure. -/
def charExplode (s : String) : Json :=
  .arr (s.toList.map (fun c => .str (String.mk [c])))

/-- The per-record work of the avro-file-udf lambda_handler: hex-decode the
first element, decode the Avro object container file, serialize the datum list
with json.dumps and then explode that text with list(...), yielding a list of
one-character strings rather than a text. -/
def avroFileRecord (env : FileEnv) (record : List String) : Except PyErr Json :=
  match record with
  | [] => .error .indexError
  | r0 :: _ =>
    match pyFromHex r0 with
    | .error e => .error e
    | .ok bytes =>
      match env.fileDecode bytes with
      | .error e => .error e
      | .ok datums => .ok (charExplode (jsonDumps (Json.arr datums)))

/-- The record comprehension of the avro-file-udf lambda_handler. -/
def avroFileLoop (env : FileEnv) : List (List String) → Except PyErr (List Json)
  | [] => .ok []
  | record :: rest =>
    match avroFileRecord env record with
    | .error e => .error e
    | .ok r =>
      match avroFileLoop env rest with
      | .error e => .error e
      | .ok rs => .ok (r :: rs)

/-- Model of the avro-file-udf lambda_handler: unlike the other handlers it
returns the envelope as a structured object (a Python dict, not a json.dumps
text), with each results entry the list(...) explosion of the record text. -/
def avroFileHandler (env : FileEnv) (event : UdfEvent) : Json :=
  match avroFileLoop env event.arguments with
  | .ok results =>
    .obj [("success", .bool true), ("num_records", .num event.numRecords),
          ("results", .arr results)]
  | .error e =>
    .obj [("success", .bool false), ("error_msg", .str (redshiftFailMsg e))]

/-- External collaborators of the glue-schema-per-stream UDF: the Glue
get_schema_version call (returning the SchemaDefinition text for a stream name,
with RegistryName fixed by the environment), avro.schema.parse on that text, and
the Avro datum decode. -/
structure GlueEnv where
  getSchemaVersion : String → Except PyErr String
  parseSchema : String → Except PyErr SchemaObj
  avroRead : SchemaObj → List Nat → Except PyErr Json

/-- The functools.lru_cache state of _get_schema: cached entries in
most-recently-used-first order, capacity 32. -/
abbrev GlueCache : Type := List (String × SchemaObj)

/-- Removal of the first entry with the given key from an LRU list. -/
def lruErase : List (String × SchemaObj) → String → List (String × SchemaObj)
  | [], _ => []
  | (k, v) :: rest, key => if k = key then rest else (k, v) :: lruErase rest key

/-- The body of _get_schema without the cache: fetch the latest schema version
for the stream name from Glue and parse its definition. -/
def glueComputeSchema (env : GlueEnv) (name : String) : Except PyErr SchemaObj :=
  match env.getSchemaVersion name with
  | .error e => .error e
  | .ok defn => env.parseSchema defn

/-- Model of _get_schema under its functools.lru_cache(maxsize=32) decorator: a
hit moves the entry to most-recently-used and performs no external call; a miss
computes the schema (exceptions are not cached), inserts it at the front and
drops the least-recently-used entry beyond capacity 32. The Nat instruments the
number of external Glue lookups performed by this call. -/
def lruGetSchema (env : GlueEnv) (cache : GlueCache) (name : String) :
    (Except PyErr (SchemaObj × Nat)) × GlueCache :=
  match dictGet cache name with
  | some sch => (.ok (sch, 0), (name, sch) :: lruErase cache name)
  | none =>
    match glueComputeSchema env name with
    | .error e => (.error e, cache)
    | .ok sch => (.ok (sch, 1), ((name, sch) :: cache).take 32)

/-- One iteration of the glue lambda_handler loop: the argument row is unpacked
as stream_name, data (ValueError unless it has exactly two elements, as Python
sequence unpacking raises); _avro_to_json then resolves the schema by the
stream name, hex-decodes the data and decodes the Avro datum, returning its
json.dumps serialization. -/
def glueProcessArg (env : GlueEnv) (cache : GlueCache) (arg : List String) :
    (Except PyErr String) × GlueCache :=
  match arg with
  | [stream_name, data] =>
    match lruGetSchema env cache stream_name with
    | (.error e, cache1) => (.error e, cache1)
    | (.ok (schema, _), cache1) =>
      match pyFromHex data with
      | .error e => (.error e, cache1)
      | .ok bytes =>
        match env.avroRead schema bytes with
        | .error e => (.error e, cache1)
        | .ok decoded => (.ok (jsonDumps decoded), cache1)
  | _ => (.error .valueError, cache)

/-- The record loop of the glue lambda_handler. -/
def glueLoop (env : GlueEnv) :
    List (List String) → GlueCache → List String → (Except PyErr (List String)) × GlueCache
  | [], cache, acc => (.ok acc, cache)
  | arg :: rest, cache, acc =>
    match glueProcessArg env cache arg with
    | (.ok r, cache1) => glueLoop env rest cache1 (acc ++ [r])
    | (.error e, cache1) => (.error e, cache1)

/-- Simplified rendering of the event interpolated into the glue failure
message (Python formats the whole event dict into the message text). -/
def glueEventRepr (event : UdfEvent) : String :=
  jsonDumps (.obj [("arguments", .arr (event.arguments.map (fun row => .arr (row.map .str)))),
                   ("num_records", .num event.numRecords)])

/-- The error message of the glue lambda_handler failure envelope, which also
interpolates the event. -/
def glueFailMsg (e : PyErr) (event : UdfEvent) : String :=
  "Error processing Lambda event. Error: " ++ errStr e ++ ". Event: " ++ glueEventRepr event

/-- Model of the glue-schema-per-stream lambda_handler. -/
def glueHandler (env : GlueEnv) (event : UdfEvent) (cache : GlueCache) :
    String × GlueCache :=
  match glueLoop env event.arguments cache [] with
  | (.ok results, cache1) =>
    (jsonDumps (redshiftSuccessObj results event.numRecords), cache1)
  | (.error e, cache1) =>
    (jsonDumps (.obj [("success", .bool false), ("error_msg", .str (glueFailMsg e event))]), cache1)

/-- Concrete external environment for the Spring pipeline in which the protobuf
parse accepts any payload as an envelope with zero sub-records. -/
def springEnvEmpty : SpringEnv :=
  ⟨fun _ => .ok ⟨[]⟩, fun _ => .ok "schema", fun s => .ok ⟨s⟩, fun _ _ => .ok .null⟩

/-- Concrete external environment for the Spring pipeline in which the protobuf
parse yields one sub-record whose single byte is not the header sentinel. -/
def springEnvOneSub : SpringEnv :=
  ⟨fun _ => .ok ⟨[[0]]⟩, fun _ => .ok "schema", fun s => .ok ⟨s⟩, fun _ _ => .ok .null⟩

/-- The initial registry state built by LambdaHandler.__init__ with the
placeholder REGISTRY_URL from the source. -/
def regInit : SpringReg := ⟨"http://.../", []⟩

/-- Concrete external environment for the glue UDF: every stream resolves to a
fixed schema definition and the Avro decode returns the byte list as numbers. -/
def glueEnvC : GlueEnv :=
  ⟨fun _ => .ok "sdef", fun s => .ok ⟨s⟩,
   fun _ bytes => .ok (.arr (bytes.map (fun b => .num (Int.ofNat b))))⟩

/-- Concrete external environment for the file handlers: every payload decodes
to an empty datum list. -/
def fileEnvC : FileEnv := ⟨fun _ => .ok []⟩

/-- The header test vector from test_get_message_headers in the source, taken
from the spring-cloud-stream MessageConverterTests. -/
def springTestVector : List Nat :=
  [255, 2, 3, 102, 111, 111, 0, 0, 0, 5, 34, 98, 97, 114, 34,
   3, 98, 97, 122, 0, 0, 0, 6, 34, 113, 117, 120, 120, 34,
   72, 101, 108, 108, 111]

/-- C3: parsing the concrete header frame FF 02 03 foo 00000005 "bar" 03 baz
00000006 "quxx" followed by the bytes Hello yields exactly the headers
foo maps to bar and baz maps to quxx with values JSON-decoded, and leaves the
cursor positioned so that the remaining unread bytes are exactly Hello. -/
theorem c3_header_test_vector :
    getMessageHeaders ⟨springTestVector, 0⟩ =
      .ok ([("foo", Json.str "bar"), ("baz", Json.str "quxx")], ⟨springTestVector, 29⟩) ∧
    (ByteStream.mk springTestVector 29).readAll.1 = [72, 101, 108, 108, 111] ∧
    utf8Decode ((ByteStream.mk springTestVector 29).readAll.1) = some "Hello" := by
  decide

/-- C4 counterexample: the empty byte sequence does not begin with the sentinel
byte 0xFF, yet get_message_headers raises struct.error on it (the 1-byte magic
read yields zero bytes and the 4-byte unpack fails) instead of returning an
empty header block with one byte consumed. -/
theorem c4_counterexample :
    getMessageHeaders ⟨[], 0⟩ = .error .structError := by
  decide

set_option maxRecDepth 4000 in
/-- C2: evaluation of the code at the failing input. The empty byte string is a
valid serialization of an AggregatedRecords envelope with zero sub-payloads; the
claim expects the decode to return an empty sequence and the batch entry to be
the JSON text of an empty list. Because KPLClient.decode rebinds the message to
the int returned by ParseFromString, it raises AttributeError instead, and the
whole batch returns the failure envelope. The third conjunct shows what the
claimed entry would have been. -/
theorem c2_code_bug_eval :
    decodeSpringKpl springEnvEmpty regInit [] = (.error .attributeError, regInit) ∧
    springbootHandler springEnvEmpty ⟨[[""]], 1⟩ regInit =
      (redshiftFailure .attributeError, regInit) ∧
    jsonDumps (Json.arr []) = "[]" := by
  decide

/-- C9: evaluation of the code at the failing input. For a sub-record whose
first byte is not 0xFF, the claim expects a KeyError on the schema_id header
key; the code instead raises AttributeError during deaggregation, before any
header is parsed, because KPLClient.decode rebinds the message to the int
returned by ParseFromString. The second conjunct shows that the loop body as
written would indeed raise the KeyError had deaggregation produced the
sub-record, and the third that the two errors differ. -/
theorem c9_code_bug_eval :
    decodeSpringKpl springEnvOneSub regInit [0] = (.error .attributeError, regInit) ∧
    processSubPayloads springEnvOneSub [[0]] regInit [] =
      (.error (.keyError "schema_id"), regInit) ∧
    PyErr.attributeError ≠ PyErr.keyError "schema_id" := by
  decide

/-- C4 (amended): for every NONEMPTY byte sequence whose first unread byte is
not the sentinel 0xFF, get_message_headers returns an empty header block and
consumes exactly one byte (the sentinel-check byte, which is not part of the
body); on the empty sequence it instead raises struct.error from the magic-byte
read (see the counterexample). -/
theorem c4_nonsentinel_consumes_one (data : List Nat) (pos : Nat) (b : Nat)
    (hb : (data.drop pos).head? = some b) (h256 : b < 256) (hff : b ≠ 255) :
    getMessageHeaders ⟨data, pos⟩ = .ok ([], ⟨data, pos + 1⟩) := by
  obtain ⟨t, ht⟩ : ∃ t, data.drop pos = b :: t := by
    cases hd : data.drop pos with
    | nil => rw [hd] at hb; simp at hb
    | cons x xs =>
      rw [hd] at hb
      simp only [List.head?_cons, Option.some.injEq] at hb
      exact ⟨xs, by rw [hb]⟩
  have hread : (ByteStream.mk data pos).read 1 = ([b], ⟨data, pos + 1⟩) := by
    simp [ByteStream.read, ht]
  have hq : readUint ⟨data, pos⟩ 1 255 = .ok (b, ⟨data, pos + 1⟩) := by
    rw [readUint]
    rw [if_pos (by constructor <;> norm_num)]
    rw [hread]
    simp [beVal, Nat.mod_eq_of_lt h256]
  rw [getMessageHeaders, hq]
  simp [hff]

/-- C4 witness: a concrete instance of the amended statement at the one-byte
sequence 0x07. -/
theorem c4_nonsentinel_consumes_one_witness :
    getMessageHeaders ⟨[7], 0⟩ = .ok ([], ⟨[7], 1⟩) :=
  c4_nonsentinel_consumes_one [7] 0 7 (by decide) (by decide) (by decide)

/-- C5: for every header frame beginning with 0xFF in which a declared length
exceeds the bytes remaining, the parse raises an error rather than returning a
partial header block, and it raises an error when a key or value is not valid
UTF-8 or a value fails to JSON-parse. Stated over the parsing primitives and the
header loop: a truncated unsigned-int read raises struct.error, a truncated
string read raises struct.error, an in-bounds string read over invalid UTF-8
raises UnicodeDecodeError, a header iteration whose value fails JSON decoding
raises json.JSONDecodeError, and any error inside the loop propagates out of
get_message_headers unchanged (so no partial header block is ever returned). -/
theorem c5_parse_error_handling :
    (∀ (s : ByteStream) (n m : Nat), 0 < n → n ≤ 4 → s.data.length - s.pos < n →
       readUint s n m = .error .structError) ∧
    (∀ (s : ByteStream) (n : Nat), s.data.length - s.pos < n →
       readString s n = .error .structError) ∧
    (∀ (s : ByteStream) (n : Nat), n ≤ s.data.length - s.pos →
       utf8Decode (s.read n).1 = none → readString s n = .error .unicodeDecodeError) ∧
    (∀ (s s1 s2 s3 s4 : ByteStream) (ks vs count : Nat) (key value : String)
       (acc : List (String × Json)),
       readUint s 1 255 = .ok (ks, s1) → readString s1 ks = .ok (key, s2) →
       readUint s2 4 4294967295 = .ok (vs, s3) → readString s3 vs = .ok (value, s4) →
       jsonLoads value = none →
       headerLoop (count + 1) s acc = .error .jsonDecodeError) ∧
    (∀ (s s1 s2 : ByteStream) (count : Nat) (e : PyErr),
       readUint s 1 255 = .ok (255, s1) → readUint s1 1 255 = .ok (count, s2) →
       headerLoop count s2 [] = .error e →
       getMessageHeaders s = .error e) := by
  refine ⟨?_, ?_, ?_, ?_, ?_⟩
  · intro s n m h1 h2 h3
    rw [readUint, if_pos ⟨h1, h2⟩, if_neg]
    have hlen : ((s.read n).1).length = s.data.length - s.pos := by
      simp only [ByteStream.read, List.length_take, List.length_drop]
      exact Nat.min_eq_right (Nat.le_of_lt h3)
    omega
  · intro s n h3
    have hlen : ((s.read n).1).length = s.data.length - s.pos := by
      simp only [ByteStream.read, List.length_take, List.length_drop]
      exact Nat.min_eq_right (Nat.le_of_lt h3)
    rw [readString, if_neg]
    omega
  · intro s n hle hu
    have hlen : ((s.read n).1).length = n := by
      simp only [ByteStream.read, List.length_take, List.length_drop]
      exact Nat.min_eq_left hle
    rw [readString, if_pos hlen, hu]
  · intro s s1 s2 s3 s4 ks vs count key value acc h1 h2 h3 h4 h5
    simp only [headerLoop, h1, h2, h3, h4, h5]
  · intro s s1 s2 count e h1 h2 h3
    rw [getMessageHeaders, h1]
    simp only [ne_eq, not_true_eq_false, if_false, ite_false, h2, h3]

/-- C5 witness: concrete instances of each conjunct — a truncated magic read, a
truncated string read, an invalid UTF-8 key, a header value that is not JSON,
and a truncated frame inside the loop propagating out of the parser. -/
theorem c5_parse_error_handling_witness :
    readUint ⟨[], 0⟩ 1 255 = .error .structError ∧
    readString ⟨[], 0⟩ 1 = .error .structError ∧
    readString ⟨[128], 0⟩ 1 = .error .unicodeDecodeError ∧
    headerLoop 1 ⟨[1, 97, 0, 0, 0, 1, 120], 0⟩ [] = .error .jsonDecodeError ∧
    getMessageHeaders ⟨[255, 1], 0⟩ = .error .structError :=
  ⟨c5_parse_error_handling.1 ⟨[], 0⟩ 1 255 (by decide) (by decide) (by decide),
   c5_parse_error_handling.2.1 ⟨[], 0⟩ 1 (by decide),
   c5_parse_error_handling.2.2.1 ⟨[128], 0⟩ 1 (by decide) (by decide),
   c5_parse_error_handling.2.2.2.1 ⟨[1, 97, 0, 0, 0, 1, 120], 0⟩
     ⟨[1, 97, 0, 0, 0, 1, 120], 1⟩ ⟨[1, 97, 0, 0, 0, 1, 120], 2⟩
     ⟨[1, 97, 0, 0, 0, 1, 120], 6⟩ ⟨[1, 97, 0, 0, 0, 1, 120], 7⟩
     1 1 0 "a" "x" [] (by decide) (by decide) (by decide) (by decide) (by decide),
   c5_parse_error_handling.2.2.2.2 ⟨[255, 1], 0⟩ ⟨[255, 1], 1⟩ ⟨[255, 1], 2⟩ 1
     .structError (by decide) (by decide) (by decide)⟩

/-- The key list of a JSON object (used to state the absence of a field). -/
def jsonObjKeys : Json → List String
  | .obj kvs => kvs.map (fun p => p.1)
  | _ => []

/-- The springboot record loop splits over list concatenation, failing with the
first error encountered. -/
theorem springLoop_append (env : SpringEnv) (l1 l2 : List (List String))
    (reg : SpringReg) (acc : List String) :
    springLoop env (l1 ++ l2) reg acc =
      match springLoop env l1 reg acc with
      | (.ok acc1, reg1) => springLoop env l2 reg1 acc1
      | (.error e, reg1) => (.error e, reg1) := by
  induction l1 generalizing reg acc with
  | nil => simp [springLoop]
  | cons r rest ih =>
    simp only [List.cons_append, springLoop]
    cases hr : springProcessRecord env r reg with
    | mk res reg1 =>
      cases res with
      | ok v => simp [ih]
      | error e => simp

/-- C6: for every input batch, the first error raised while processing any
record aborts processing of all remaining records (the result does not depend on
the records after the failing one), and the orchestrator returns the single
failure envelope whose error_msg includes the triggering error text; the failure
envelope has only the success and error_msg fields, so no partial per-record
results are returned. -/
theorem c6_first_error_aborts_batch (env : SpringEnv) (pre post : List (List String))
    (x : List String) (n : Int) (reg reg1 reg2 : SpringReg) (acc : List String) (e : PyErr)
    (h1 : springLoop env pre reg [] = (.ok acc, reg1))
    (h2 : springProcessRecord env x reg1 = (.error e, reg2)) :
    springbootHandler env ⟨pre ++ x :: post, n⟩ reg = (redshiftFailure e, reg2) ∧
    (∃ a, redshiftFailMsg e = a ++ errStr e) ∧
    jsonObjKeys (redshiftFailureObj e) = ["success", "error_msg"] := by
  have hs : springLoop env (pre ++ x :: post) reg [] = (.error e, reg2) := by
    rw [springLoop_append, h1]
    show springLoop env (x :: post) reg1 acc = _
    rw [springLoop, h2]
  refine ⟨?_, ⟨"Error processing Lambda event. Error: ", rfl⟩, rfl⟩
  rw [springbootHandler]
  show (match springLoop env (pre ++ x :: post) reg [] with
        | (.ok results, reg3) => (redshiftSuccess results n, reg3)
        | (.error e2, reg3) => (redshiftFailure e2, reg3)) = _
  rw [hs]

/-- C6 witness: a concrete batch whose single record fails (the deaggregation
raises), so the handler returns the single failure envelope. -/
theorem c6_first_error_aborts_batch_witness :
    springbootHandler springEnvEmpty ⟨[[""]], 1⟩ regInit =
      (redshiftFailure .attributeError, regInit) ∧
    (∃ a, redshiftFailMsg .attributeError = a ++ errStr .attributeError) ∧
    jsonObjKeys (redshiftFailureObj .attributeError) = ["success", "error_msg"] :=
  c6_first_error_aborts_batch springEnvEmpty [] [] [""] 1 regInit regInit regInit []
    .attributeError (by decide) (by decide)

/-- Lookup of a freshly inserted key. -/
theorem dictGet_dictInsert_self {α β : Type} [DecidableEq α] (d : List (α × β)) (k : α) (v : β) :
    dictGet (dictInsert d k v) k = some v := by
  induction d with
  | nil => simp [dictGet, dictInsert]
  | cons p rest ih =>
    obtain ⟨k0, w⟩ := p
    by_cases h : k0 = k
    · simp [dictGet, dictInsert, h]
    · simp [dictGet, dictInsert, h, ih]

/-- Inserting an absent key appends it. -/
theorem dictInsert_of_get_none {α β : Type} [DecidableEq α] (d : List (α × β)) (k : α) (v : β)
    (h : dictGet d k = none) : dictInsert d k v = d ++ [(k, v)] := by
  induction d with
  | nil => simp [dictInsert]
  | cons p rest ih =>
    obtain ⟨k0, w⟩ := p
    by_cases hk : k0 = k
    · rw [dictGet, if_pos hk] at h; exact absurd h (by simp)
    · rw [dictGet, if_neg hk] at h
      simp [dictInsert, hk, ih h]

/-- A lookup that succeeds on a prefix dict also succeeds after appending. -/
theorem dictGet_append_left {α β : Type} [DecidableEq α] (d e : List (α × β)) (k : α) (v : β)
    (h : dictGet d k = some v) : dictGet (d ++ e) k = some v := by
  induction d with
  | nil => simp [dictGet] at h
  | cons p rest ih =>
    obtain ⟨k0, w⟩ := p
    by_cases hk : k0 = k
    · rw [dictGet, if_pos hk] at h
      simp [dictGet, hk, h]
    · rw [dictGet, if_neg hk] at h
      simp [dictGet, hk, ih h]

/-- C1 (amended): after one successful resolve, the Spring registry cache
(SpringSchemaRegistry.get) always hits — the same schema is returned with no
external lookup and the cache is unchanged — and never evicts any entry; the
Glue stream-schema cache (functools.lru_cache maxsize 32 on _get_schema) hits
on an immediately repeated resolve, but is an LRU of capacity 32 and can evict
an entry once 32 more-recently-used distinct keys intervene, after which
resolving that identifier performs a new external lookup (see the
counterexample). -/
theorem c1_cache_behaviour :
    (∀ (env : SpringEnv) (reg : SpringReg) (id : Json) (sch : SchemaObj) (k : Nat)
       (reg1 : SpringReg),
       SpringReg.get env reg id = (.ok (sch, k), reg1) →
       SpringReg.get env reg1 id = (.ok (sch, 0), reg1)) ∧
    (∀ (env : SpringEnv) (reg : SpringReg) (id : Json) (res : Except PyErr (SchemaObj × Nat))
       (reg1 : SpringReg) (id2 : Json) (sch2 : SchemaObj),
       SpringReg.get env reg id = (res, reg1) →
       dictGet reg.schemas id2 = some sch2 → dictGet reg1.schemas id2 = some sch2) ∧
    (∀ (env : GlueEnv) (cache : GlueCache) (name : String) (sch : SchemaObj) (k : Nat)
       (cache1 : GlueCache),
       lruGetSchema env cache name = (.ok (sch, k), cache1) →
       lruGetSchema env cache1 name = (.ok (sch, 0), cache1)) := by
  refine ⟨?_, ?_, ?_⟩
  · intro env reg id sch k reg1 h
    cases hd : dictGet reg.schemas id with
    | some s0 =>
      simp only [SpringReg.get, hd, Prod.mk.injEq, Except.ok.injEq] at h
      obtain ⟨⟨hsch, _⟩, hreg⟩ := h
      subst hsch; subst hreg
      rw [SpringReg.get, hd]
    | none =>
      cases hf : env.fetch id with
      | error e =>
        simp only [SpringReg.get, hd, hf, Prod.mk.injEq] at h
        exact absurd h.1 (by simp)
      | ok data =>
        cases hp : env.parseSchemaResp data with
        | error e =>
          simp only [SpringReg.get, hd, hf, hp, Prod.mk.injEq] at h
          exact absurd h.1 (by simp)
        | ok sch0 =>
          simp only [SpringReg.get, hd, hf, hp, Prod.mk.injEq, Except.ok.injEq] at h
          obtain ⟨⟨hsch, _⟩, hreg⟩ := h
          subst hsch
          rw [SpringReg.get, ← hreg]
          simp [dictGet_dictInsert_self]
  · intro env reg id res reg1 id2 sch2 h hget
    cases hd : dictGet reg.schemas id with
    | some s0 =>
      simp only [SpringReg.get, hd] at h
      have hreg : reg = reg1 := congrArg Prod.snd h
      rw [← hreg]; exact hget
    | none =>
      cases hf : env.fetch id with
      | error e =>
        simp only [SpringReg.get, hd, hf] at h
        have hreg : reg = reg1 := congrArg Prod.snd h
        rw [← hreg]; exact hget
      | ok data =>
        cases hp : env.parseSchemaResp data with
        | error e =>
          simp only [SpringReg.get, hd, hf, hp] at h
          have hreg : reg = reg1 := congrArg Prod.snd h
          rw [← hreg]; exact hget
        | ok sch0 =>
          simp only [SpringReg.get, hd, hf, hp] at h
          have hreg : reg1 = ⟨reg.url, dictInsert reg.schemas id sch0⟩ :=
            (congrArg Prod.snd h).symm
          rw [hreg]
          show dictGet (dictInsert reg.schemas id sch0) id2 = some sch2
          rw [dictInsert_of_get_none reg.schemas id sch0 hd]
          exact dictGet_append_left _ _ _ _ hget
  · intro env cache name sch k cache1 h
    cases hd : dictGet cache name with
    | some s0 =>
      simp only [lruGetSchema, hd, Prod.mk.injEq, Except.ok.injEq] at h
      obtain ⟨⟨hsch, _⟩, hc⟩ := h
      subst hsch
      rw [← hc]
      rw [lruGetSchema]
      simp [dictGet, lruErase]
    | none =>
      cases hc : glueComputeSchema env name with
      | error e =>
        simp only [lruGetSchema, hd, hc, Prod.mk.injEq] at h
        exact absurd h.1 (by simp)
      | ok sch0 =>
        simp only [lruGetSchema, hd, hc, Prod.mk.injEq, Except.ok.injEq] at h
        obtain ⟨⟨hsch, _⟩, hcc⟩ := h
        subst hsch
        rw [← hcc]
        have ht : ((name, sch0) :: cache).take 32 = (name, sch0) :: cache.take 31 := rfl
        rw [ht, lruGetSchema]
        simp [dictGet, lruErase]

/-- C1 witness: concrete instances of the three conjuncts — a Spring miss
followed by a hit with no further lookup, preservation of an existing Spring
cache entry across an unrelated resolve, and a Glue hit immediately after a
miss. -/
theorem c1_cache_behaviour_witness :
    SpringReg.get springEnvEmpty ⟨"http://.../", [(Json.str "a", ⟨"schema"⟩)]⟩ (Json.str "a") =
      (.ok (⟨"schema"⟩, 0), ⟨"http://.../", [(Json.str "a", ⟨"schema"⟩)]⟩) ∧
    dictGet (SpringReg.mk "http://.../"
        [(Json.str "b", ⟨"y"⟩), (Json.str "a", ⟨"schema"⟩)]).schemas (Json.str "b") =
      some ⟨"y"⟩ ∧
    lruGetSchema glueEnvC [("s1", ⟨"sdef"⟩)] "s1" =
      (.ok (⟨"sdef"⟩, 0), [("s1", ⟨"sdef"⟩)]) :=
  ⟨c1_cache_behaviour.1 springEnvEmpty regInit (Json.str "a") ⟨"schema"⟩ 1
     ⟨"http://.../", [(Json.str "a", ⟨"schema"⟩)]⟩ (by decide),
   c1_cache_behaviour.2.1 springEnvEmpty ⟨"http://.../", [(Json.str "b", ⟨"y"⟩)]⟩
     (Json.str "a") (.ok (⟨"schema"⟩, 1))
     ⟨"http://.../", [(Json.str "b", ⟨"y"⟩), (Json.str "a", ⟨"schema"⟩)]⟩
     (Json.str "b") ⟨"y"⟩ (by decide) (by decide),
   c1_cache_behaviour.2.2 glueEnvC [] "s1" ⟨"sdef"⟩ 1 [("s1", ⟨"sdef"⟩)] (by decide)⟩

/-- Resolving a list of stream names in order through the Glue LRU cache,
keeping only the final cache state. -/
def fillCache (env : GlueEnv) : List String → GlueCache → GlueCache
  | [], c => c
  | k :: ks, c => fillCache env ks (lruGetSchema env c k).2

/-- The Glue cache state after resolving stream 0 and then 32 further distinct
streams, which evicts stream 0 from the capacity-32 LRU cache. -/
def c1EvictedState : GlueCache :=
  fillCache glueEnvC ((List.range 32).map (fun n => toString (n + 1)))
    (lruGetSchema glueEnvC [] "0").2

set_option maxRecDepth 100000 in
/-- C1 counterexample: the first resolve of stream 0 succeeds (performing one
external lookup); after 32 other distinct identifiers are resolved, resolving
stream 0 again performs another external lookup (the instrumentation counter is
1, not 0), because the functools.lru_cache of _get_schema evicted it — so a
cache entry IS evicted and a subsequent resolve of an already-resolved
identifier does trigger a second external lookup. -/
theorem c1_counterexample_lru_eviction :
    (lruGetSchema glueEnvC [] "0").1 = .ok (⟨"sdef"⟩, 1) ∧
    (lruGetSchema glueEnvC c1EvictedState "0").1 = .ok (⟨"sdef"⟩, 1) := by
  decide

/-- A successful avro-file-udf record result is always the list(...) explosion
of some text, never a text. -/
theorem avroFileRecord_ok_shape (env : FileEnv) (record : List String) (j : Json)
    (h : avroFileRecord env record = .ok j) : ∃ s, j = charExplode s := by
  cases record with
  | nil => simp [avroFileRecord] at h
  | cons r0 rest =>
    cases hx : pyFromHex r0 with
    | error e =>
      simp only [avroFileRecord, hx] at h
      exact Except.noConfusion h
    | ok bytes =>
      cases hf : env.fileDecode bytes with
      | error e =>
        simp only [avroFileRecord, hx, hf] at h
        exact Except.noConfusion h
      | ok datums =>
        simp only [avroFileRecord, hx, hf, Except.ok.injEq] at h
        exact ⟨jsonDumps (Json.arr datums), h.symm⟩

/-- A successful springboot record loop yields one result per argument in
order: the i-th result text is produced by processing the i-th record at the
registry state the loop reached there. -/
theorem springLoop_ok_mirror (env : SpringEnv) (args : List (List String)) :
    ∀ (reg reg1 : SpringReg) (acc results : List String),
    springLoop env args reg acc = (.ok results, reg1) →
    ∃ tail : List String, results = acc ++ tail ∧ tail.length = args.length ∧
      ∀ (i : Nat) (hi : i < args.length) (hi2 : i < tail.length),
        ∃ rg rg1 : SpringReg,
          springProcessRecord env (args.get ⟨i, hi⟩) rg = (.ok (tail.get ⟨i, hi2⟩), rg1) := by
  induction args with
  | nil =>
    intro reg reg1 acc results h
    simp only [springLoop, Prod.mk.injEq, Except.ok.injEq] at h
    exact ⟨[], by simp [← h.1], rfl, fun i hi => absurd hi (Nat.not_lt_zero i)⟩
  | cons r rest ih =>
    intro reg reg1 acc results h
    cases hr : springProcessRecord env r reg with
    | mk res regx =>
      cases res with
      | error e =>
        simp only [springLoop, hr, Prod.mk.injEq] at h
        exact absurd h.1 (by simp)
      | ok x =>
        simp only [springLoop, hr] at h
        obtain ⟨tail2, heq, hlen, hidx⟩ := ih regx reg1 (acc ++ [x]) results h
        refine ⟨x :: tail2, by simp [heq], by simp [hlen], ?_⟩
        intro i hi hi2
        cases i with
        | zero => exact ⟨reg, regx, by simpa using hr⟩
        | succ i0 =>
          simp only [List.get_cons_succ]
          exact hidx i0 (by simpa using hi) (by simpa using hi2)

/-- C7 (amended): for every batch that processes without error, the spring
handlers built on _redshift_success (file_handler and springboot_handler)
return the envelope with success true, the num_records integer, and results a
sequence of JSON text strings that mirrors the input record order one-to-one,
each element being the json.dumps text of that record decoded value list; the
avro-file-udf lambda_handler also mirrors order one-to-one but wraps each
record text in list(...), so its results entries are arrays of one-character
strings rather than JSON text strings (see the counterexample). -/
theorem c7_success_results_mirror_order :
    (∀ (env : FileEnv) (event : UdfEvent) (results : List String),
       fileLoop env event.arguments = .ok results →
       fileHandler env event = redshiftSuccess results event.numRecords) ∧
    (∀ (env : FileEnv) (args : List (List String)) (results : List String),
       fileLoop env args = .ok results →
       results.length = args.length ∧
       ∀ (i : Nat) (hi : i < args.length) (hi2 : i < results.length),
         fileProcessRecord env (args.get ⟨i, hi⟩) = .ok (results.get ⟨i, hi2⟩)) ∧
    (∀ (env : SpringEnv) (event : UdfEvent) (reg reg1 : SpringReg) (results : List String),
       springLoop env event.arguments reg [] = (.ok results, reg1) →
       springbootHandler env event reg = (redshiftSuccess results event.numRecords, reg1)) ∧
    (∀ (env : SpringEnv) (args : List (List String)) (reg reg1 : SpringReg)
       (results : List String),
       springLoop env args reg [] = (.ok results, reg1) →
       results.length = args.length ∧
       ∀ (i : Nat) (hi : i < args.length) (hi2 : i < results.length),
         ∃ rg rg1 : SpringReg,
           springProcessRecord env (args.get ⟨i, hi⟩) rg = (.ok (results.get ⟨i, hi2⟩), rg1)) ∧
    (∀ (env : FileEnv) (args : List (List String)) (results : List Json),
       avroFileLoop env args = .ok results →
       results.length = args.length ∧ ∀ j ∈ results, ∃ s, j = charExplode s) := by
  refine ⟨?_, ?_, ?_, ?_, ?_⟩
  · intro env event results h
    rw [fileHandler, h]
  · intro env args
    induction args with
    | nil =>
      intro results h
      simp only [fileLoop, Except.ok.injEq] at h
      subst h
      exact ⟨rfl, fun i hi => absurd hi (Nat.not_lt_zero i)⟩
    | cons r rest ih =>
      intro results h
      cases hr : fileProcessRecord env r with
      | error e =>
        simp only [fileLoop, hr] at h
        exact Except.noConfusion h
      | ok x =>
        cases hl : fileLoop env rest with
        | error e =>
          simp only [fileLoop, hr, hl] at h
          exact Except.noConfusion h
        | ok xs =>
          simp only [fileLoop, hr, hl, Except.ok.injEq] at h
          subst h
          obtain ⟨hlen, hidx⟩ := ih xs hl
          refine ⟨by simp [hlen], ?_⟩
          intro i hi hi2
          cases i with
          | zero => simpa using hr
          | succ i0 =>
            simp only [List.get_cons_succ]
            exact hidx i0 (by simpa using hi) (by simpa using hi2)
  · intro env event reg reg1 results h
    rw [springbootHandler, h]
  · intro env args reg reg1 results h
    obtain ⟨tail, heq, hlen, hidx⟩ := springLoop_ok_mirror env args reg reg1 [] results h
    simp only [List.nil_append] at heq
    subst heq
    exact ⟨hlen, hidx⟩
  · intro env args
    induction args with
    | nil =>
      intro results h
      simp only [avroFileLoop, Except.ok.injEq] at h
      subst h
      exact ⟨rfl, by intro j hj; simp at hj⟩
    | cons r rest ih =>
      intro results h
      cases hr : avroFileRecord env r with
      | error e =>
        simp only [avroFileLoop, hr] at h
        exact Except.noConfusion h
      | ok x =>
        cases hl : avroFileLoop env rest with
        | error e =>
          simp only [avroFileLoop, hr, hl] at h
          exact Except.noConfusion h
        | ok xs =>
          simp only [avroFileLoop, hr, hl, Except.ok.injEq] at h
          subst h
          obtain ⟨hlen, hmem⟩ := ih xs hl
          refine ⟨by simp [hlen], ?_⟩
          intro j hj
          cases hj with
          | head => exact avroFileRecord_ok_shape env r x hr
          | tail _ hj2 => exact hmem j hj2

/-- C7 witness: concrete instances — a one-record batch through file_handler
yields the success envelope with the record text, the loop lemmas applied to
that batch give the one-to-one length facts, and a successfully processed
springboot batch (the empty batch, the only one its loop can complete given the
deaggregation bug) yields the _redshift_success envelope. -/
theorem c7_success_results_mirror_order_witness :
    fileHandler fileEnvC ⟨[[""]], 1⟩ = redshiftSuccess ["[]"] 1 ∧
    (["[]"] : List String).length = ([[""]] : List (List String)).length ∧
    springbootHandler springEnvEmpty ⟨[], 3⟩ regInit = (redshiftSuccess [] 3, regInit) ∧
    ([] : List String).length = ([] : List (List String)).length ∧
    ([Json.arr [Json.str "[", Json.str "]"]] : List Json).length =
      ([[""]] : List (List String)).length :=
  ⟨c7_success_results_mirror_order.1 fileEnvC ⟨[[""]], 1⟩ ["[]"] (by decide),
   (c7_success_results_mirror_order.2.1 fileEnvC [[""]] ["[]"] (by decide)).1,
   c7_success_results_mirror_order.2.2.1 springEnvEmpty ⟨[], 3⟩ regInit regInit []
     (by decide),
   (c7_success_results_mirror_order.2.2.2.1 springEnvEmpty [] regInit regInit []
     (by decide)).1,
   (c7_success_results_mirror_order.2.2.2.2 fileEnvC [[""]]
     [Json.arr [Json.str "[", Json.str "]"]] (by decide)).1⟩

/-- C7 counterexample: a successful one-record batch through the avro-file-udf
handler returns a results entry that is an array of the one-character strings of
the record text (list applied to json.dumps), not the JSON text itself — so not
every handler returns results whose elements are JSON text strings. -/
theorem c7_counterexample_charlist_results :
    avroFileHandler fileEnvC ⟨[[""]], 1⟩ =
      Json.obj [("success", Json.bool true), ("num_records", Json.num 1),
                ("results", Json.arr [Json.arr [Json.str "[", Json.str "]"]])] := by
  decide

/-- A successful dict lookup witnesses membership. -/
theorem dictGet_mem {α β : Type} [DecidableEq α] (d : List (α × β)) (k : α) (v : β)
    (h : dictGet d k = some v) : (k, v) ∈ d := by
  induction d with
  | nil => simp [dictGet] at h
  | cons p rest ih =>
    obtain ⟨k0, w⟩ := p
    by_cases hk : k0 = k
    · rw [dictGet, if_pos hk] at h
      subst hk
      simp only [Option.some.injEq] at h
      subst h
      exact List.mem_cons_self _ _
    · rw [dictGet, if_neg hk] at h
      exact List.mem_cons_of_mem _ (ih h)

/-- Every entry of the Glue LRU cache agrees with what the external environment
would compute for its key (the invariant the real lru_cache maintains, since
entries only ever come from successful _get_schema computations). -/
def CacheCoherent (env : GlueEnv) (cache : GlueCache) : Prop :=
  ∀ p : String × SchemaObj, p ∈ cache → glueComputeSchema env p.1 = .ok p.2

/-- C8 (amended): in the spring UDF handlers each argument row is interpreted
through its FIRST element only, the hexadecimal encoding of the record bytes
(any further elements, including a routing key, are ignored); in the glue
single_schema UDF each argument row must be exactly a pair whose FIRST element
is the routing key (stream name) resolved via the schema registry client and
whose SECOND element is the hexadecimal record — reversed from the claimed
order — and rows of any other length raise ValueError from tuple unpacking. -/
theorem c8_argument_interpretation :
    (∀ (env : GlueEnv) (cache : GlueCache) (s d : String) (sch : SchemaObj)
       (bytes : List Nat) (v : Json),
       CacheCoherent env cache →
       glueComputeSchema env s = .ok sch → pyFromHex d = .ok bytes →
       env.avroRead sch bytes = .ok v →
       (glueProcessArg env cache [s, d]).1 = .ok (jsonDumps v)) ∧
    (∀ (env : GlueEnv) (cache : GlueCache) (arg : List String),
       arg.length ≠ 2 → (glueProcessArg env cache arg).1 = .error .valueError) ∧
    (∀ (env : FileEnv) (r0 : String) (rest : List String),
       fileProcessRecord env (r0 :: rest) = fileProcessRecord env [r0]) ∧
    (∀ (env : SpringEnv) (reg : SpringReg) (r0 : String) (rest : List String),
       springProcessRecord env (r0 :: rest) reg = springProcessRecord env [r0] reg) := by
  refine ⟨?_, ?_, ?_, ?_⟩
  · intro env cache s d sch bytes v hco hcs hhex hread
    cases hd : dictGet cache s with
    | some s0 =>
      have h0 : glueComputeSchema env s = .ok s0 := hco (s, s0) (dictGet_mem _ _ _ hd)
      have hs0 : s0 = sch := by rw [h0] at hcs; exact Except.ok.inj hcs
      subst hs0
      simp only [glueProcessArg, lruGetSchema, hd, hhex, hread]
    | none =>
      simp only [glueProcessArg, lruGetSchema, hd, hcs, hhex, hread]
  · intro env cache arg h
    cases arg with
    | nil => rfl
    | cons a rest =>
      cases rest with
      | nil => rfl
      | cons b rest2 =>
        cases rest2 with
        | nil => exact absurd rfl h
        | cons c rest3 => rfl
  · intro env r0 rest
    rfl
  · intro env reg r0 rest
    rfl

/-- The file-handler loop yields one result per argument. -/
theorem fileLoop_ok_length (env : FileEnv) (args : List (List String)) (results : List String)
    (h : fileLoop env args = .ok results) : results.length = args.length := by
  induction args generalizing results with
  | nil =>
    simp only [fileLoop, Except.ok.injEq] at h
    subst h; rfl
  | cons r rest ih =>
    cases hr : fileProcessRecord env r with
    | error e =>
      simp only [fileLoop, hr] at h
      exact Except.noConfusion h
    | ok x =>
      cases hl : fileLoop env rest with
      | error e =>
        simp only [fileLoop, hr, hl] at h
        exact Except.noConfusion h
      | ok xs =>
        simp only [fileLoop, hr, hl, Except.ok.injEq] at h
        subst h
        simp [ih xs hl]

/-- The glue loop yields one result per argument beyond the accumulator. -/
theorem glueLoop_ok_length (env : GlueEnv) (args : List (List String)) :
    ∀ (cache cache1 : GlueCache) (acc results : List String),
    glueLoop env args cache acc = (.ok results, cache1) →
    results.length = acc.length + args.length := by
  induction args with
  | nil =>
    intro cache cache1 acc results h
    simp only [glueLoop, Prod.mk.injEq, Except.ok.injEq] at h
    rw [← h.1]
    simp
  | cons a rest ih =>
    intro cache cache1 acc results h
    cases hr : glueProcessArg env cache a with
    | mk res c1 =>
      cases res with
      | ok r =>
        simp only [glueLoop, hr] at h
        have h2 := ih c1 cache1 (acc ++ [r]) results h
        have h3 : (acc ++ [r]).length = acc.length + 1 := by simp
        rw [h3] at h2
        simp only [List.length_cons]
        omega
      | error e =>
        simp only [glueLoop, hr, Prod.mk.injEq] at h
        exact absurd h.1 (by simp)

/-- C10: the num_records field of the success envelope is copied verbatim from
the input event and never validated against the processed record count: for
every event whose num_records differs from the length of its arguments, a
successful batch still reports the supplied num_records while results has one
entry per argument. Stated for the spring file_handler and the glue handler. -/
theorem c10_num_records_copied_verbatim :
    (∀ (env : FileEnv) (event : UdfEvent) (results : List String),
       event.numRecords ≠ (event.arguments.length : Int) →
       fileLoop env event.arguments = .ok results →
       fileHandler env event = redshiftSuccess results event.numRecords ∧
       results.length = event.arguments.length) ∧
    (∀ (env : GlueEnv) (event : UdfEvent) (cache cache1 : GlueCache) (results : List String),
       event.numRecords ≠ (event.arguments.length : Int) →
       glueLoop env event.arguments cache [] = (.ok results, cache1) →
       glueHandler env event cache =
         (jsonDumps (redshiftSuccessObj results event.numRecords), cache1) ∧
       results.length = event.arguments.length) := by
  refine ⟨?_, ?_⟩
  · intro env event results _ h
    refine ⟨?_, fileLoop_ok_length env event.arguments results h⟩
    rw [fileHandler, h]
  · intro env event cache cache1 results _ h
    refine ⟨?_, by simpa using glueLoop_ok_length env event.arguments cache cache1 [] results h⟩
    rw [glueHandler, h]

/-- C8 witness: concrete instances — a glue row resolved by its first element
with its second element hex-decoded, a one-element glue row raising ValueError,
and spring records whose extra elements are ignored. -/
theorem c8_argument_interpretation_witness :
    (glueProcessArg glueEnvC [] ["a", "00"]).1 = .ok (jsonDumps (Json.arr [Json.num 0])) ∧
    (glueProcessArg glueEnvC [] ["a"]).1 = .error .valueError ∧
    fileProcessRecord fileEnvC ["00", "ignored"] = fileProcessRecord fileEnvC ["00"] ∧
    springProcessRecord springEnvEmpty ["00", "ignored"] regInit =
      springProcessRecord springEnvEmpty ["00"] regInit :=
  ⟨c8_argument_interpretation.1 glueEnvC [] "a" "00" ⟨"sdef"⟩ [0] (Json.arr [Json.num 0])
     (fun p hp => absurd hp (List.not_mem_nil p)) (by decide) (by decide) (by decide),
   c8_argument_interpretation.2.1 glueEnvC [] ["a"] (by decide),
   c8_argument_interpretation.2.2.1 fileEnvC "00" ["ignored"],
   c8_argument_interpretation.2.2.2 springEnvEmpty regInit "00" ["ignored"]⟩

set_option maxRecDepth 4000 in
/-- C8 counterexample: the glue handler succeeds on the event whose first inner
element "zz" is not valid hexadecimal at all — it is used as the registry
routing key, while the second element "00" supplies the record bytes. Were the
first element interpreted as the hexadecimal encoding of the record bytes, the
batch would fail with ValueError. -/
theorem c8_counterexample_glue_order :
    pyFromHex "zz" = .error .valueError ∧
    (glueHandler glueEnvC ⟨[["zz", "00"]], 1⟩ []).1 =
      jsonDumps (redshiftSuccessObj ["[0]"] 1) := by
  decide

/-- C10 witness: concrete instances for both handlers with num_records set to
values different from the argument count (5 and 7 against one argument). -/
theorem c10_num_records_copied_verbatim_witness :
    fileHandler fileEnvC ⟨[[""]], 5⟩ = redshiftSuccess ["[]"] 5 ∧
    glueHandler glueEnvC ⟨[["a", "00"]], 7⟩ [] =
      (jsonDumps (redshiftSuccessObj ["[0]"] 7), [("a", ⟨"sdef"⟩)]) :=
  ⟨(c10_num_records_copied_verbatim.1 fileEnvC ⟨[[""]], 5⟩ ["[]"] (by decide) (by decide)).1,
   (c10_num_records_copied_verbatim.2 glueEnvC ⟨[["a", "00"]], 7⟩ [] [("a", ⟨"sdef"⟩)]
     ["[0]"] (by decide) (by decide)).1⟩
